import Mathlib

/-!
# Verification of the pyvnc RFB client protocol engine

Shallow embedding of the pyvnc RFB 3.8 client (`pyvnc/pyvnc_sync.py`,
`pyvnc/pyvnc_common.py`).  Bytes are modelled as natural numbers, the
server-to-client byte stream as a `List Nat` consumed from the front, and
the bytes the client writes to the socket as an explicit trace
(`List Nat`).  External collaborators that the specification declares out
of scope (the zlib stream decoder, the DES block cipher, the keysym
table) are parameters of the corresponding definitions.
-/

namespace PyVNC

/-! ## Wire I/O primitives (`read` / `read_int` in `pyvnc_sync.py`) -/

/-- Source `read(sock, length)`: take exactly `n` bytes from the front of the
stream, or fail if the stream is exhausted first (a blocking read that
never completes / `TransportError`). -/
def readBytes (n : Nat) (s : List Nat) : Option (List Nat × List Nat) :=
  if n ≤ s.length then some (s.take n, s.drop n) else none

/-- Big-endian interpretation of a byte string (`int.from_bytes(_, 'big')`). -/
def beInt (bs : List Nat) : Nat :=
  bs.foldl (fun acc b => acc * 256 + b) 0

/-- Source `read_int(sock, length)`: read `n` bytes and decode big-endian. -/
def readInt (n : Nat) (s : List Nat) : Option (Nat × List Nat) :=
  (readBytes n s).map (fun p => (beInt p.1, p.2))

/-- Big-endian encoding of `v` on `n` bytes (`v.to_bytes(n, 'big')`). -/
def toBytes : Nat → Nat → List Nat
  | 0, _ => []
  | n + 1, v => toBytes n (v / 256) ++ [v % 256]

/-! ## Input emitter: KeyEvent and PointerEvent byte frames -/

/-- KeyEvent press frame: `b'\x04\x01\x00\x00' + keysym.to_bytes(4, 'big')`
(from `SyncVNCClient._write_key`). -/
def keyPress (code : Nat) : List Nat :=
  [4, 1, 0, 0] ++ toBytes 4 code

/-- KeyEvent release frame: `b'\x04\x00\x00\x00' + keysym.to_bytes(4, 'big')`
(from the `finally` block of `SyncVNCClient._write_key`). -/
def keyRelease (code : Nat) : List Nat :=
  [4, 0, 0, 0] ++ toBytes 4 code

/-- PointerEvent frame (from `SyncVNCClient._write_mouse`):
`b'\x05' + buttons.to_bytes(1) + x.to_bytes(2) + y.to_bytes(2)`. -/
def pointerEvent (buttons x y : Nat) : List Nat :=
  [5] ++ toBytes 1 buttons ++ toBytes 2 x ++ toBytes 2 y

/-! ## Scoped key hold (`SyncVNCClient.hold_key` / `_write_key`)

`hold_key` enters one `_write_key` context per key through an
`ExitStack`.  Each `_write_key(key)` looks the key up in `key_codes`
(raising `KeyError` for an unknown name, before any byte is sent), then
sends the press frame; its `finally` block sends the release frame.  The
`ExitStack` unwinds the successfully entered contexts in reverse order on
every exit path, including when an `__enter__` or the scope body raises.

The keysym table is an external collaborator, modelled as a partial map
`kc : String → Option Nat`.  The scope body is abstract: a byte trace it
emits plus a flag recording whether it raised. -/

/-- Entering the `_write_key` contexts for `keys` in order: returns the
press bytes emitted, the keysym codes successfully entered (in press
order), and the first unknown key name, if any. -/
def enterKeys (kc : String → Option Nat) : List String → List Nat × List Nat × Option String
  | [] => ([], [], none)
  | k :: ks =>
    match kc k with
    | none => ([], [], some k)
    | some c =>
      let r := enterKeys kc ks
      (keyPress c ++ r.1, c :: r.2.1, r.2.2)

/-- Release frames for the entered codes, in reverse press order
(`ExitStack` unwind order). -/
def releaseAll (codes : List Nat) : List Nat :=
  codes.reverse.flatMap keyRelease

/-- The byte trace of one `hold_key(*keys)` scope, together with the
unknown-key error (if the lookup of some key failed) and whether the
scope re-raises the body's exception.  `body = (bodyTrace, bodyRaised)`.
If a lookup fails, the body never runs and the already entered keys are
released; otherwise the body runs and all keys are released afterwards,
whether or not the body raised. -/
def holdKeyTrace (kc : String → Option Nat) (keys : List String)
    (body : List Nat × Bool) : List Nat × Option String × Bool :=
  let e := enterKeys kc keys
  match e.2.2 with
  | some k => (e.1 ++ releaseAll e.2.1, some k, false)
  | none => (e.1 ++ body.1 ++ releaseAll e.2.1, none, body.2)

/-! ## Scoped mouse hold (`SyncVNCClient.hold_mouse` / `_write_mouse`) -/

/-- Clearing bit `b`: Python computes `m & ~(1 << b)` on unbounded
non-negative ints, which clears exactly bit `b`; on naturals this equals
removing the extracted bit by XOR. -/
def clearBit (m b : Nat) : Nat := m ^^^ (m &&& (1 <<< b))

/-- The observable behaviour of the scope body of a `hold_mouse` block:
the bytes it emits, and the session's button mask and pointer position
when it finishes (the `finally` block reads the state current at exit),
plus whether it raised. -/
structure MouseBody where
  trace : List Nat
  endMask : Nat
  endX : Nat
  endY : Nat
  raised : Bool

/-- One `hold_mouse(button)` scope, entered with button mask `pre` and
pointer position `(x, y)`: sets bit `button` (`mouse_buttons |= mask`),
emits a PointerEvent, runs the body, and in the `finally` block clears
the bit (`mouse_buttons &= ~mask`) and emits another PointerEvent at the
exit-time state.  Returns the byte trace, the final button mask, and
whether the body's exception propagates. -/
def holdMouseTrace (pre x y button : Nat) (body : MouseBody) :
    List Nat × Nat × Bool :=
  let m1 := pre ||| (1 <<< button)
  let m2 := clearBit body.endMask button
  (pointerEvent m1 x y ++ body.trace ++ pointerEvent m2 body.endX body.endY,
   m2, body.raised)

/-! ## Coordinate mapper (`CommonVNCClient` in `pyvnc_common.py`)

The Python code computes with IEEE floats
(`aspect_ratio = width / height`, `int(max_dimension / aspect_ratio)`);
here the same formulas are evaluated in exact arithmetic, `int(...)` of a
non-negative quotient being natural floor division.  The branch condition
`aspect_ratio >= 1.0` is exactly `height ≤ width`. -/

/-- Source `CommonVNCClient.get_relative_resolution` for a framebuffer `W × H`:
the longer side maps to `99900` and the other side to
`⌊99900·short/long⌋` rounded down to a multiple of 100. -/
def getRelativeResolution (W H : Nat) : Nat × Nat :=
  if H ≤ W then
    (99900, 99900 * H / W / 100 * 100)
  else
    (99900 * W / H / 100 * 100, 99900)

/-- Source `CommonVNCClient._convert_relative_point`:
`(int(rx / rel_w * W), int(ry / rel_h * H))`.  In Python a zero relative
dimension raises `ZeroDivisionError`; theorems about this function carry
positivity hypotheses accordingly. -/
def convertRelativePoint (W H rx ry : Nat) : Nat × Nat :=
  let r := getRelativeResolution W H
  (rx * W / r.1, ry * H / r.2)

/-! ## VNC DES key derivation (`_sync_connect_vnc`, auth branch) -/

/-- One step of the password-to-key quirk:
`int(bin(n)[:1:-1].ljust(8, '0'), 2)`, i.e. the binary digits of `n`
without leading zeros, reversed, padded on the right with zeros to width
8 and re-read MSB-first.  For a byte `n < 256` this is exactly the
reversal of the order of its 8 bits. -/
def reverseBits8 (n : Nat) : Nat :=
  (List.range 8).foldl (fun acc i => acc + ((n >>> i) &&& 1) * 2 ^ (7 - i)) 0

/-- The DES key derived from a password (as its encoded bytes): first 8
bytes, right-padded with NUL to length 8 (`[:8].ljust(8, b'\x00')`),
each byte bit-reversed. -/
def vncKeyDerive (pwd : List Nat) : List Nat :=
  ((pwd.take 8) ++ List.replicate (8 - (pwd.take 8).length) 0).map reverseBits8

/-! ## Pixel formats and encodings (`pyvnc_common.py`) -/

/-- The four 16-byte pixel-format records of `pixel_formats`. -/
def pixelFormats (name : String) : List Nat :=
  if name = "bgra" then
    [0x20, 0x18, 0x00, 0x01, 0x00, 0xff, 0x00, 0xff, 0x00, 0xff, 0x10, 0x08, 0x00, 0x00, 0x00, 0x00]
  else if name = "rgba" then
    [0x20, 0x18, 0x00, 0x01, 0x00, 0xff, 0x00, 0xff, 0x00, 0xff, 0x00, 0x08, 0x10, 0x00, 0x00, 0x00]
  else if name = "argb" then
    [0x20, 0x18, 0x01, 0x01, 0x00, 0xff, 0x00, 0xff, 0x00, 0xff, 0x10, 0x08, 0x00, 0x00, 0x00, 0x00]
  else if name = "abgr" then
    [0x20, 0x18, 0x01, 0x01, 0x00, 0xff, 0x00, 0xff, 0x00, 0xff, 0x00, 0x08, 0x10, 0x00, 0x00, 0x00]
  else []

/-- Constant `VNC_PROTOCOL_VERSION = b'RFB 003.008\n'` as bytes. -/
def protocolVersion : List Nat :=
  [0x52, 0x46, 0x42, 0x20, 0x30, 0x30, 0x33, 0x2e, 0x30, 0x30, 0x38, 0x0a]

/-- Constant `VNC_PROTOCOL_PREFIX = b'RFB '`. -/
def rfbMagic : List Nat := [0x52, 0x46, 0x42, 0x20]

/-- The SetPixelFormat + SetEncodings block sent after ServerInit:
`b'\x00\x00\x00\x00' + pixel_formats[fmt] + b'\x02\x00' +
len(encodings).to_bytes(2) + b''.join(e.to_bytes(4) for e in encodings)`
with `encodings = {ENCODING_ZLIB} = {6}`. -/
def setupBlock (fmt : String) : List Nat :=
  [0, 0, 0, 0] ++ pixelFormats fmt ++ [2, 0] ++ toBytes 2 1 ++ toBytes 4 6

/-! ## Geometry -/

/-- Source `Rect = namedtuple('Rect', 'x y width height')`. -/
structure Rect where
  x : Nat
  y : Nat
  width : Nat
  height : Nat
deriving DecidableEq

/-! ## Connection handshake (`_sync_connect_vnc` in `pyvnc_sync.py`)

The function is translated phase by phase, in source order.  Each phase
returns the outcome together with the bytes the client wrote during that
phase; the top-level function concatenates them, so the second component
of `connectVNC` is the exact client-to-server byte trace. -/

/-- Terminal outcomes of `_sync_connect_vnc`. -/
inductive ConnectResult where
  /-- handshake completed; framebuffer rectangle and unread stream rest -/
  | connected (rect : Rect) (rest : List Nat)
  /-- `ValueError('not a VNC server')` -/
  | notVNC
  /-- zero security types: `ValueError(reason)` -/
  | handshakeRejected (reason : List Nat)
  /-- `NotImplementedError` for Apple Remote Desktop (type 33) -/
  | ardUnsupported
  /-- `ValueError(f'unsupported VNC auth types: ...')` -/
  | unsupportedAuth (types : List Nat)
  /-- `ValueError('VNC server requires password')` -/
  | passwordRequired
  /-- `PermissionError('VNC auth failed')` -/
  | authFailed
  /-- `PermissionError('VNC auth failed (too many attempts)')` -/
  | authFailedTooMany
  /-- `PermissionError(reason)` for any other non-zero status -/
  | authFailedReason (reason : List Nat)
  /-- the stream ended inside a blocking read -/
  | shortRead
deriving DecidableEq

/-- The security-type selection of lines 92-102: the `for ... else` loop
prefers VNC (2) over None (1); with neither present, Apple Remote
Desktop (33) gets a dedicated error, any other set a generic one. -/
inductive AuthChoice where
  | vnc
  | noAuth
  | ard
  | unsupported
deriving DecidableEq

/-- Selection policy over the offered security-type set. -/
def negotiateAuth (types : List Nat) : AuthChoice :=
  if types.contains 2 then .vnc
  else if types.contains 1 then .noAuth
  else if types.contains 33 then .ard
  else .unsupported

/-- The SecurityResult check of lines 119-128: read a 4-byte status;
`0` passes, `1` and `2` fail with fixed messages, and any other status
`r` makes the client read `r` further bytes (the status value itself is
reused as the reason length) and fail with them as the reason.  Returns
the outcome and the remaining stream, `none` when a read runs short;
`.connected` stands for "status accepted" here and is replaced by the
caller. -/
def checkAuthResult (s : List Nat) : Option (Option ConnectResult × List Nat) :=
  match readInt 4 s with
  | none => none
  | some (r, s1) =>
    if r = 0 then some (none, s1)
    else if r = 1 then some (some .authFailed, s1)
    else if r = 2 then some (some .authFailedTooMany, s1)
    else
      match readBytes r s1 with
      | none => none
      | some (reason, s2) => some (some (.authFailedReason reason), s2)

/-- The post-authentication tail of `_sync_connect_vnc` (lines 130-139):
send ClientInit `b'\x01'`, read the ServerInit (2+2 byte framebuffer
size, 16-byte server pixel format, length-prefixed desktop name), then
send the SetPixelFormat/SetEncodings block.  Returns the outcome and the
bytes emitted in this phase. -/
def finishInit (fmt : String) (s : List Nat) : ConnectResult × List Nat :=
  match readInt 2 s with
  | none => (.shortRead, [1])
  | some (w, s1) =>
  match readInt 2 s1 with
  | none => (.shortRead, [1])
  | some (h, s2) =>
  match readBytes 16 s2 with
  | none => (.shortRead, [1])
  | some (_, s3) =>
  match readInt 4 s3 with
  | none => (.shortRead, [1])
  | some (n, s4) =>
  match readBytes n s4 with
  | none => (.shortRead, [1])
  | some (_, s5) =>
    (.connected ⟨0, 0, w, h⟩ s5, [1] ++ setupBlock fmt)

/-- SecurityResult check followed by session init. -/
def afterAuth (fmt : String) (s : List Nat) : ConnectResult × List Nat :=
  match checkAuthResult s with
  | none => (.shortRead, [])
  | some (some err, _) => (err, [])
  | some (none, s1) => finishInit fmt s1

/-- Source `_sync_connect_vnc`, as a function of the configured password (its
encoded bytes, `none` when unset), the DES encryption primitive
(external: maps derived key and 16-byte challenge to the ciphertext the
client sends), the configured pixel-format name, and the server's byte
stream.  Result and full client-to-server byte trace. -/
def connectVNC (password : Option (List Nat))
    (desEncrypt : List Nat → List Nat → List Nat)
    (fmt : String) (s : List Nat) : ConnectResult × List Nat :=
  match readBytes 12 s with
  | none => (.shortRead, [])
  | some (intro, s1) =>
  if intro.take 4 = rfbMagic then
    let rest : ConnectResult × List Nat :=
      match readInt 1 s1 with
      | none => (.shortRead, [])
      | some (k, s2) =>
      match readBytes k s2 with
      | none => (.shortRead, [])
      | some (types, s3) =>
      if types = [] then
        match readInt 4 s3 with
        | none => (.shortRead, [])
        | some (n, s4) =>
        match readBytes n s4 with
        | none => (.shortRead, [])
        | some (reason, _) => (.handshakeRejected reason, [])
      else
        match negotiateAuth types with
        | .vnc =>
          let vncCont : ConnectResult × List Nat :=
            match password with
            | none => (.passwordRequired, [])
            | some pwd =>
              if pwd = [] then (.passwordRequired, [])
              else
                match readBytes 16 s3 with
                | none => (.shortRead, [])
                | some (challenge, s4) =>
                  let c := afterAuth fmt s4
                  (c.1, desEncrypt (vncKeyDerive pwd) challenge ++ c.2)
          (vncCont.1, [2] ++ vncCont.2)
        | .noAuth =>
          let c := afterAuth fmt s3
          (c.1, [1] ++ c.2)
        | .ard => (.ardUnsupported, [])
        | .unsupported => (.unsupportedAuth types, [])
    (rest.1, protocolVersion ++ rest.2)
  else (.notVNC, [])

/-! ## Framebuffer capture (`SyncVNCClient.capture`)

The pixel buffer `np.zeros((H, W, 4), 'B')` is a list of `H` rows of `W`
RGBA cells.  The session's zlib decoder (`decompressobj().decompress`,
persistent across rectangles and captures) is an external stateful
byte-to-byte decoder, modelled by a state type `D` and a step function
`dec : D → List Nat → List Nat × D`. -/

/-- One RGBA cell of the pixel buffer. -/
structure Cell where
  r : Nat
  g : Nat
  b : Nat
  a : Nat
deriving DecidableEq

/-- The all-zero cell `np.zeros` starts from. -/
def zeroCell : Cell := ⟨0, 0, 0, 0⟩

/-- The framebuffer-sized buffer of `capture`, all cells zero. -/
def initBuf (W H : Nat) : List (List Cell) :=
  List.replicate H (List.replicate W zeroCell)

/-- Read of `pixels[y][x]` (out-of-range reads only arise in statements about
clamped slices and default to the zero cell). -/
def getCell (buf : List (List Cell)) (x y : Nat) : Cell :=
  ((buf.get? y).bind fun row => row.get? x).getD zeroCell

/-- Variant of `List.map` with the element's position, used to write a rectangle
into the row-of-cells buffer. -/
def mapWithIndex (f : Nat → α → β) : Nat → List α → List β
  | _, [] => []
  | i, a :: as => f i a :: mapWithIndex f (i + 1) as

/-- The cell of a decoded rectangle payload at column `j`, row `i` of a
width-`w` rectangle: bytes `4*(i*w + j) ..+ 4` of the payload, with the
alpha overridden by 255 (the source assigns the pixel data and then sets
`pixels[slice_rect(area_rect, 3)] = 255`; the two assignments are
combined here). -/
def areaCell (area : List Nat) (w i j : Nat) : Cell :=
  let o := 4 * (i * w + j)
  ⟨area.getD o 0, area.getD (o + 1) 0, area.getD (o + 2) 0, 255⟩

/-- Assignments `pixels[slice_rect(area_rect)] = area` and
`pixels[slice_rect(area_rect, 3)] = 255`:
every cell inside `r` is replaced by the corresponding payload cell
(alpha forced to 255), every other cell is kept. -/
def writeRect (buf : List (List Cell)) (r : Rect) (area : List Nat) :
    List (List Cell) :=
  mapWithIndex (fun y row =>
    if r.y ≤ y ∧ y < r.y + r.height then
      mapWithIndex (fun x c =>
        if r.x ≤ x ∧ x < r.x + r.width then areaCell area r.width (y - r.y) (x - r.x)
        else c) 0 row
    else row) 0 buf

/-- The completeness test `pixels[slice_rect(rect, 3)].all()`: numpy
truthiness of every alpha byte in the requested region (the slice clamps
to the buffer bounds), i.e. every such alpha is non-zero. -/
def regionCoveredB (W H : Nat) (rect : Rect) (buf : List (List Cell)) : Bool :=
  (List.range (min (rect.y + rect.height) H - rect.y)).all fun dy =>
    (List.range (min (rect.x + rect.width) W - rect.x)).all fun dx =>
      (getCell buf (rect.x + dx) (rect.y + dy)).a != 0

/-- The value `capture` returns: `pixels[slice_rect(rect)]`, the clamped
sub-rectangle of the buffer, materialised row by row. -/
def extractGrid (W H : Nat) (rect : Rect) (buf : List (List Cell)) :
    List (List Cell) :=
  (List.range (min (rect.y + rect.height) H - rect.y)).map fun dy =>
    (List.range (min (rect.x + rect.width) W - rect.x)).map fun dx =>
      getCell buf (rect.x + dx) (rect.y + dy)

/-- Errors of the capture read loop. -/
inductive CaptureError where
  /-- `ValueError(f'unsupported VNC update type: ...')` -/
  | unknownMessageType (v : Nat)
  /-- `ValueError(f'unsupported VNC encoding: ...')` -/
  | unsupportedEncoding (v : Nat)
  /-- a blocking read that can never complete -/
  | shortRead
  /-- the numpy rectangle write fails: the decoded payload is smaller
  than `width*height*4`, or the rectangle reaches outside the
  framebuffer so the assignment's shapes mismatch -/
  | badRectangle
deriving DecidableEq

/-- The FramebufferUpdate rectangle loop
(`for _ in range(read_int(sock, 2))`, lines 227-241): reads `n`
rectangle headers and payloads, decoding Raw (0) in place and zlib (6)
through the session decoder, and writes each into the buffer. -/
def processRects (dec : D → List Nat → List Nat × D) (W H : Nat) :
    Nat → List (List Cell) → D → List Nat →
    Except CaptureError (List (List Cell) × D × List Nat)
  | 0, buf, d, s => .ok (buf, d, s)
  | n + 1, buf, d, s =>
    match readInt 2 s with
    | none => .error .shortRead
    | some (x, s1) =>
    match readInt 2 s1 with
    | none => .error .shortRead
    | some (y, s2) =>
    match readInt 2 s2 with
    | none => .error .shortRead
    | some (w, s3) =>
    match readInt 2 s3 with
    | none => .error .shortRead
    | some (h, s4) =>
    match readInt 4 s4 with
    | none => .error .shortRead
    | some (enc, s5) =>
    if enc = 0 then
      match readBytes (h * w * 4) s5 with
      | none => .error .shortRead
      | some (area, s6) =>
        if x + w ≤ W ∧ y + h ≤ H then
          processRects dec W H n (writeRect buf ⟨x, y, w, h⟩ area) d s6
        else .error .badRectangle
    else if enc = 6 then
      match readInt 4 s5 with
      | none => .error .shortRead
      | some (len, s6) =>
      match readBytes len s6 with
      | none => .error .shortRead
      | some (payload, s7) =>
        if h * w * 4 ≤ (dec d payload).1.length ∧ x + w ≤ W ∧ y + h ≤ H then
          processRects dec W H n (writeRect buf ⟨x, y, w, h⟩ (dec d payload).1)
            (dec d payload).2 s7
        else .error .badRectangle
    else .error (.unsupportedEncoding enc)

/-- The outcome of one iteration of the `while True` read loop. -/
inductive StepResult (D : Type) where
  /-- the completeness test passed: return -/
  | finished (buf : List (List Cell)) (d : D) (s : List Nat)
  /-- keep reading further messages -/
  | more (buf : List (List Cell)) (d : D) (s : List Nat)
  | fail (e : CaptureError)

/-- One iteration of the read loop of `capture` (lines 222-245): read
the message type byte; type 2 (ServerCutText) reads a 4-byte length and
discards that many bytes — the source reads no padding bytes before the
length; type 0 (FramebufferUpdate) reads one padding byte, a 2-byte
rectangle count and the rectangles, then returns iff the requested
region's alpha map is all non-zero; anything else fails. -/
def captureStep (dec : D → List Nat → List Nat × D) (W H : Nat) (rect : Rect)
    (buf : List (List Cell)) (d : D) (s : List Nat) : StepResult D :=
  match readInt 1 s with
  | none => .fail .shortRead
  | some (t, s1) =>
  if t = 2 then
    match readInt 4 s1 with
    | none => .fail .shortRead
    | some (n, s2) =>
    match readBytes n s2 with
    | none => .fail .shortRead
    | some (_, s3) => .more buf d s3
  else if t = 0 then
    match readBytes 1 s1 with
    | none => .fail .shortRead
    | some (_, s2) =>
    match readInt 2 s2 with
    | none => .fail .shortRead
    | some (n, s3) =>
    match processRects dec W H n buf d s3 with
    | .error e => .fail e
    | .ok (buf1, d1, s4) =>
      if regionCoveredB W H rect buf1 then .finished buf1 d1 s4
      else .more buf1 d1 s4
  else .fail (.unknownMessageType t)

/-- Results of the capture read loop, fuelled. -/
inductive CaptureResult (D : Type) where
  | ok (buf : List (List Cell)) (d : D) (s : List Nat)
  | error (e : CaptureError)
  | outOfFuel
deriving DecidableEq

/-- The `while True` loop of `capture`, iterated at most `fuel` times. -/
def captureLoop (dec : D → List Nat → List Nat × D) (W H : Nat) (rect : Rect) :
    Nat → List (List Cell) → D → List Nat → CaptureResult D
  | 0, _, _, _ => .outOfFuel
  | fuel + 1, buf, d, s =>
    match captureStep dec W H rect buf d s with
    | .fail e => .error e
    | .finished buf1 d1 s1 => .ok buf1 d1 s1
    | .more buf1 d1 s1 => captureLoop dec W H rect fuel buf1 d1 s1

/-- Operation `capture(rect)` on a framebuffer `W × H`: request bytes are emitted
(not modelled here), the buffer starts all zero, the loop runs, and on
return the requested sub-rectangle of the buffer is delivered. -/
def capture (dec : D → List Nat → List Nat × D) (W H : Nat) (rect : Rect)
    (fuel : Nat) (d : D) (s : List Nat) : Option (List (List Cell)) :=
  match captureLoop dec W H rect fuel (initBuf W H) d s with
  | .ok buf _ _ => some (extractGrid W H rect buf)
  | _ => none

/-- The FramebufferUpdateRequest bytes `capture` sends first:
`b'\x03\x00' + x.to_bytes(2) + y.to_bytes(2) + width.to_bytes(2) + height.to_bytes(2)`. -/
def captureRequest (rect : Rect) : List Nat :=
  [3, 0] ++ toBytes 2 rect.x ++ toBytes 2 rect.y ++
    toBytes 2 rect.width ++ toBytes 2 rect.height

/-- Modelled from the spec: the ServerCutText branch as the claim (and
RFB 3.8) states it — read 3 padding bytes, then the 4-byte length, then
discard that many bytes.  This is the only difference from
`captureStep`; the source skips no padding bytes. -/
def captureStepSpecCut (dec : D → List Nat → List Nat × D) (W H : Nat)
    (rect : Rect) (buf : List (List Cell)) (d : D) (s : List Nat) :
    StepResult D :=
  match readInt 1 s with
  | none => .fail .shortRead
  | some (t, s1) =>
  if t = 2 then
    match readBytes 3 s1 with
    | none => .fail .shortRead
    | some (_, s2) =>
    match readInt 4 s2 with
    | none => .fail .shortRead
    | some (n, s3) =>
    match readBytes n s3 with
    | none => .fail .shortRead
    | some (_, s4) => .more buf d s4
  else if t = 0 then
    match readBytes 1 s1 with
    | none => .fail .shortRead
    | some (_, s2) =>
    match readInt 2 s2 with
    | none => .fail .shortRead
    | some (n, s3) =>
    match processRects dec W H n buf d s3 with
    | .error e => .fail e
    | .ok (buf1, d1, s4) =>
      if regionCoveredB W H rect buf1 then .finished buf1 d1 s4
      else .more buf1 d1 s4
  else .fail (.unknownMessageType t)

/-- Modelled from the spec: the read loop with the padding-correct
ServerCutText branch. -/
def captureLoopSpecCut (dec : D → List Nat → List Nat × D) (W H : Nat)
    (rect : Rect) : Nat → List (List Cell) → D → List Nat → CaptureResult D
  | 0, _, _, _ => .outOfFuel
  | fuel + 1, buf, d, s =>
    match captureStepSpecCut dec W H rect buf d s with
    | .fail e => .error e
    | .finished buf1 d1 s1 => .ok buf1 d1 s1
    | .more buf1 d1 s1 => captureLoopSpecCut dec W H rect fuel buf1 d1 s1

/-- The identity decoder, used to exercise Raw-only streams. -/
def idDecoder : Unit → List Nat → List Nat × Unit := fun _ bs => (bs, ())

/-! ## Concrete data and claim-side models used by the theorems -/

/-- Modelled from the claim's words, for comparison: on a status other
than 0, 1 and 2 read a 4-byte big-endian length prefix followed by that
many bytes and fail with them as the reason. -/
def specCheckAuthResult (s : List Nat) : Option (Option ConnectResult × List Nat) :=
  match readInt 4 s with
  | none => none
  | some (r, s1) =>
    if r = 0 then some (none, s1)
    else if r = 1 then some (some .authFailed, s1)
    else if r = 2 then some (some .authFailedTooMany, s1)
    else
      match readInt 4 s1 with
      | none => none
      | some (len, s2) =>
      match readBytes len s2 with
      | none => none
      | some (reason, s3) => some (some (.authFailedReason reason), s3)

/-- The UTF-8/ASCII bytes of `"password"`. -/
def passwordBytes : List Nat := [0x70, 0x61, 0x73, 0x73, 0x77, 0x6F, 0x72, 0x64]

/-- The scripted "canonical 3.8 None-auth" server stream of scenario 1:
server greeting, one security type None, SecurityResult OK, ServerInit
for a 640×480 framebuffer with a 16-byte server format and the desktop
name "test". -/
def noneAuthScript : List Nat :=
  protocolVersion ++ [1, 1] ++ [0, 0, 0, 0] ++
    [0x02, 0x80, 0x01, 0xE0] ++ List.replicate 16 0 ++
    [0, 0, 0, 4, 0x74, 0x65, 0x73, 0x74]

/-- Scenario 6's wire bytes on a 1×1 framebuffer: a ServerCutText
(type 2, three padding bytes `AA BB CC`, length 5, "hello") interleaved
before a FramebufferUpdate whose single Raw rectangle covers the
requested region `(0,0,1,1)`. -/
def cutTextScript : List Nat :=
  [0x02, 0xAA, 0xBB, 0xCC, 0x00, 0x00, 0x00, 0x05,
   0x68, 0x65, 0x6C, 0x6C, 0x6F] ++
  [0x00, 0x00, 0x00, 0x01,
   0x00, 0x00, 0x00, 0x00, 0x00, 0x01, 0x00, 0x01,
   0x00, 0x00, 0x00, 0x00,
   0x11, 0x22, 0x33, 0x44]

/-- Alpha bytes are only ever the initial 0 or the written mark 255. -/
def marksOnly (buf : List (List Cell)) : Prop :=
  ∀ x y, (getCell buf x y).a = 0 ∨ (getCell buf x y).a = 255

/-! ## Helper lemmas -/

theorem readBytes_append (xs ys : List Nat) (n : Nat) (h : xs.length = n) :
    readBytes n (xs ++ ys) = some (xs, ys) := by
  subst h
  simp [readBytes, List.take_left, List.drop_left]

theorem length_toBytes (n v : Nat) : (toBytes n v).length = n := by
  induction n generalizing v with
  | zero => rfl
  | succ n ih => simp [toBytes, ih]

theorem beInt_singleton (b : Nat) : beInt [b] = b := by
  simp [beInt]

theorem beInt_append_singleton (bs : List Nat) (b : Nat) :
    beInt (bs ++ [b]) = beInt bs * 256 + b := by
  simp [beInt, List.foldl_append]

theorem beInt_toBytes (n r : Nat) (h : r < 256 ^ n) : beInt (toBytes n r) = r := by
  induction n generalizing r with
  | zero =>
    interval_cases r
    rfl
  | succ n ih =>
    have hdiv : r / 256 < 256 ^ n := by
      rw [Nat.div_lt_iff_lt_mul (by norm_num : 0 < 256)]
      calc r < 256 ^ (n + 1) := h
        _ = 256 ^ n * 256 := by ring
    rw [toBytes, beInt_append_singleton, ih _ hdiv]
    rw [Nat.mul_comm]
    exact Nat.div_add_mod r 256

theorem readInt_toBytes (n r : Nat) (rest : List Nat) (h : r < 256 ^ n) :
    readInt n (toBytes n r ++ rest) = some (r, rest) := by
  rw [readInt, readBytes_append _ _ _ (length_toBytes n r), Option.map_some']
  rw [beInt_toBytes n r h]

/-- Lemma: `enterKeys` when every key resolves: presses in order, all entered,
no error. -/
theorem enterKeys_all_known (kc : String → Option Nat) :
    ∀ (keys : List String) (codes : List Nat),
      keys.map kc = codes.map some →
      enterKeys kc keys = (codes.flatMap keyPress, codes, none) := by
  intro keys
  induction keys with
  | nil =>
    intro codes h
    cases codes with
    | nil => rfl
    | cons c cs => simp at h
  | cons k ks ih =>
    intro codes h
    cases codes with
    | nil => simp at h
    | cons c cs =>
      simp only [List.map_cons, List.cons.injEq] at h
      rw [enterKeys, h.1, ih cs h.2]
      simp [List.flatMap_cons]

/-- Lemma: `enterKeys` when the keys are a known prefix followed by an unknown
key: presses for the prefix only, error at the unknown key. -/
theorem enterKeys_unknown (kc : String → Option Nat) :
    ∀ (pre : List String) (codes : List Nat) (k : String) (post : List String),
      pre.map kc = codes.map some → kc k = none →
      enterKeys kc (pre ++ k :: post) = (codes.flatMap keyPress, codes, some k) := by
  intro pre
  induction pre with
  | nil =>
    intro codes k post h hk
    cases codes with
    | nil => simp [enterKeys, hk]
    | cons c cs => simp at h
  | cons p ps ih =>
    intro codes k post h hk
    cases codes with
    | nil => simp at h
    | cons c cs =>
      simp only [List.map_cons, List.cons.injEq] at h
      rw [List.cons_append, enterKeys, h.1, ih cs k post h.2 hk]
      simp [List.flatMap_cons]

/-! ## C2: hold_key press/release symmetry -/

/-- C2: for every key list whose names are all present in the keysym
table (resolving to `codes`), a `hold_key` scope emits exactly the
presses in order, then the body's bytes, then the releases in reverse
order — on both exit paths (`body.2` records whether the body raised,
and is propagated unchanged, the releases having been emitted either
way). -/
theorem holdKey_press_release_symmetry (kc : String → Option Nat)
    (keys : List String) (codes : List Nat) (body : List Nat × Bool)
    (h : keys.map kc = codes.map some) :
    holdKeyTrace kc keys body =
      (codes.flatMap keyPress ++ body.1 ++ codes.reverse.flatMap keyRelease,
       none, body.2) := by
  rw [holdKeyTrace, enterKeys_all_known kc keys codes h]
  rfl

/-- Witness for C2: `hold_key("Ctrl", "a")` with a body that raises
emits `04 01 00 00 ‹Ctrl› 04 01 00 00 ‹a› 04 00 00 00 ‹a› 04 00 00 00 ‹Ctrl›`
(scenario 5 of the specification). -/
theorem holdKey_press_release_symmetry_witness :
    holdKeyTrace
      (fun s => if s = "Ctrl" then some 0xFFE3 else if s = "a" then some 0x61 else none)
      ["Ctrl", "a"] ([], true) =
      ([4, 1, 0, 0, 0, 0, 0xFF, 0xE3, 4, 1, 0, 0, 0, 0, 0, 0x61,
        4, 0, 0, 0, 0, 0, 0, 0x61, 4, 0, 0, 0, 0, 0, 0xFF, 0xE3], none, true) := by
  rw [holdKey_press_release_symmetry
    (fun s => if s = "Ctrl" then some 0xFFE3 else if s = "a" then some 0x61 else none)
    ["Ctrl", "a"] [0xFFE3, 0x61] ([], true) (by decide)]
  decide

/-! ## C10: unknown key in the middle of a hold -/

/-- C10: if `hold_key` is invoked with a known prefix (resolving to
`codes`), then a key `k` absent from the table, then anything: the
presses for the prefix are emitted, no bytes at all for `k` (the lookup
precedes its press), the prefix is released in reverse order, and the
unknown-key error propagates (the body never runs). -/
theorem holdKey_unknown_key_unwind (kc : String → Option Nat)
    (pre : List String) (codes : List Nat) (k : String) (post : List String)
    (body : List Nat × Bool)
    (h : pre.map kc = codes.map some) (hk : kc k = none) :
    holdKeyTrace kc (pre ++ k :: post) body =
      (codes.flatMap keyPress ++ codes.reverse.flatMap keyRelease, some k, false) := by
  rw [holdKeyTrace, enterKeys_unknown kc pre codes k post h hk]
  rfl

/-- Witness for C10: `hold_key("Ctrl", "Bogus", "a")` with `Bogus`
unknown presses and releases only `Ctrl` and reports `Bogus`. -/
theorem holdKey_unknown_key_unwind_witness :
    holdKeyTrace
      (fun s => if s = "Ctrl" then some 0xFFE3 else if s = "a" then some 0x61 else none)
      ["Ctrl", "Bogus", "a"] ([], false) =
      ([4, 1, 0, 0, 0, 0, 0xFF, 0xE3, 4, 0, 0, 0, 0, 0, 0xFF, 0xE3],
       some "Bogus", false) := by
  rw [show (["Ctrl", "Bogus", "a"] : List String) = ["Ctrl"] ++ "Bogus" :: ["a"] from rfl,
    holdKey_unknown_key_unwind
      (fun s => if s = "Ctrl" then some 0xFFE3 else if s = "a" then some 0x61 else none)
      ["Ctrl"] [0xFFE3] "Bogus" ["a"] ([], false) (by decide) (by decide)]
  decide

/-! ## C9: scoped mouse hold -/

theorem testBit_clearBit (m b i : Nat) :
    (clearBit m b).testBit i = if i = b then false else m.testBit i := by
  rw [clearBit, Nat.testBit_xor, Nat.testBit_and, Nat.one_shiftLeft]
  by_cases h : i = b
  · subst h
    rw [@Nat.testBit_two_pow_self i]
    simp
  · rw [Nat.testBit_two_pow_of_ne (fun e => h e.symm)]
    simp [h]

/-- Counterexample to C9 as stated: entering `hold_mouse(0)` while
button 0 is already held (pre-entry mask `1`) leaves the mask at `0` on
exit, not at its pre-entry value — the exit handler clears the bit
instead of restoring it. -/
theorem holdMouse_restore_false :
    ¬ ((holdMouseTrace 1 5 7 0 ⟨[], 1 ||| (1 <<< 0), 5, 7, false⟩).2.1 = 1) := by
  decide

/-- C9 (amended): `hold_mouse(b)` emits one PointerEvent whose mask
has bit `b` set on entry and, on every exit path (the body's raised flag
is propagated after the release is emitted), one PointerEvent whose mask
has bit `b` cleared; the final button mask is the exit-time mask with
bit `b` cleared — which equals the pre-entry mask whenever the body
left the mask as entered **and** bit `b` was not already set on entry
(rather than unconditionally, as the claim stated). -/
theorem holdMouse_scoped_release (pre x y b : Nat) (body : MouseBody) :
    (holdMouseTrace pre x y b body).1 =
        pointerEvent (pre ||| (1 <<< b)) x y ++ body.trace ++
          pointerEvent (clearBit body.endMask b) body.endX body.endY ∧
      (pre ||| (1 <<< b)).testBit b = true ∧
      (clearBit body.endMask b).testBit b = false ∧
      (holdMouseTrace pre x y b body).2.1 = clearBit body.endMask b ∧
      (holdMouseTrace pre x y b body).2.2 = body.raised ∧
      (body.endMask = pre ||| (1 <<< b) → pre.testBit b = false →
        (holdMouseTrace pre x y b body).2.1 = pre) := by
  refine ⟨rfl, ?_, ?_, rfl, rfl, ?_⟩
  · rw [Nat.testBit_or, Nat.one_shiftLeft, @Nat.testBit_two_pow_self b]
    simp
  · rw [testBit_clearBit]
    simp
  · intro hend hb
    show clearBit body.endMask b = pre
    rw [hend]
    refine Nat.eq_of_testBit_eq fun i => ?_
    rw [testBit_clearBit, Nat.testBit_or, Nat.one_shiftLeft]
    by_cases h : i = b
    · subst h
      simp [hb]
    · rw [Nat.testBit_two_pow_of_ne (fun e => h e.symm)]
      simp [h]

/-- Witness for C9's amended theorem at `pre = 0`, `b = 2`, a body that
moves the pointer to `(9, 9)` and raises. -/
theorem holdMouse_scoped_release_witness :
    (holdMouseTrace 0 5 7 2 ⟨pointerEvent 4 9 9, 4, 9, 9, true⟩).1 =
        pointerEvent (0 ||| (1 <<< 2)) 5 7 ++ pointerEvent 4 9 9 ++
          pointerEvent (clearBit 4 2) 9 9 ∧
      (0 ||| (1 <<< 2)).testBit 2 = true ∧
      (clearBit 4 2).testBit 2 = false ∧
      (holdMouseTrace 0 5 7 2 ⟨pointerEvent 4 9 9, 4, 9, 9, true⟩).2.1 = clearBit 4 2 ∧
      (holdMouseTrace 0 5 7 2 ⟨pointerEvent 4 9 9, 4, 9, 9, true⟩).2.2 = true ∧
      ((4 : Nat) = 0 ||| (1 <<< 2) → (0 : Nat).testBit 2 = false →
        (holdMouseTrace 0 5 7 2 ⟨pointerEvent 4 9 9, 4, 9, 9, true⟩).2.1 = 0) :=
  holdMouse_scoped_release 0 5 7 2 ⟨pointerEvent 4 9 9, 4, 9, 9, true⟩

/-! ## C6: DES key derivation vector -/

/-- Counterexample to C6 as stated: the derivation applied to
`"password"` does **not** yield `0E A6 0E 0E C2 CE 4C 0E`. -/
theorem desKey_vector_false :
    ¬ (vncKeyDerive passwordBytes =
        [0x0E, 0xA6, 0x0E, 0x0E, 0xC2, 0xCE, 0x4C, 0x0E]) := by
  decide

/-- C6 (amended): the VNC DES key derivation (first 8 bytes of the
encoded password, NUL-padded to 8, each byte bit-reversed) applied to
`"password"` yields `0E 86 CE CE EE F6 4E 26`. -/
theorem desKey_password_vector :
    vncKeyDerive passwordBytes =
      [0x0E, 0x86, 0xCE, 0xCE, 0xEE, 0xF6, 0x4E, 0x26] := by
  decide

/-! ## C7: coordinate mapper -/

/-- Counterexample to C7 as stated: at `(W, H) = (65535, 1)` (within the
claimed range) the relative height is `0`, not a positive multiple of
100: `⌊99900·1/65535⌋ = 1` rounds down to `0`. -/
theorem relativeResolution_positive_false :
    ¬ (0 < (getRelativeResolution 65535 1).2) := by
  decide

/-- C7 (amended): for every framebuffer `(W, H)` with
`1 ≤ W, H ≤ 65535`: both relative dimensions are multiples of 100 and at
most 99900, the larger one equals 99900 exactly, and **when both are
positive** (the smaller one can be zero for aspect ratios beyond 999:1)
converting `(0, 0)` yields `(0, 0)` and converting `(rel_w, rel_h)`
yields `(W, H)`. -/
theorem relativeResolution_properties (W H : Nat)
    (hW1 : 1 ≤ W) (hW2 : W ≤ 65535) (hH1 : 1 ≤ H) (hH2 : H ≤ 65535) :
    100 ∣ (getRelativeResolution W H).1 ∧
      100 ∣ (getRelativeResolution W H).2 ∧
      (getRelativeResolution W H).1 ≤ 99900 ∧
      (getRelativeResolution W H).2 ≤ 99900 ∧
      max (getRelativeResolution W H).1 (getRelativeResolution W H).2 = 99900 ∧
      (0 < (getRelativeResolution W H).1 → 0 < (getRelativeResolution W H).2 →
        convertRelativePoint W H 0 0 = (0, 0) ∧
        convertRelativePoint W H (getRelativeResolution W H).1
          (getRelativeResolution W H).2 = (W, H)) := by
  have hdvd : ∀ n : Nat, 100 ∣ n / 100 * 100 := fun n => Dvd.intro_left (n / 100) rfl
  have hle : ∀ a b : Nat, 0 < b → a ≤ b → 99900 * a / b / 100 * 100 ≤ 99900 := by
    intro a b hb hab
    calc 99900 * a / b / 100 * 100 ≤ 99900 * a / b := Nat.div_mul_le_self _ _
      _ ≤ 99900 * b / b := Nat.div_le_div_right (Nat.mul_le_mul_left _ hab)
      _ = 99900 := Nat.mul_div_cancel 99900 hb
  have hzero : convertRelativePoint W H 0 0 = (0, 0) := by
    show (0 * W / (getRelativeResolution W H).1,
      0 * H / (getRelativeResolution W H).2) = (0, 0)
    simp
  have hconv : 0 < (getRelativeResolution W H).1 →
      0 < (getRelativeResolution W H).2 →
      convertRelativePoint W H (getRelativeResolution W H).1
        (getRelativeResolution W H).2 = (W, H) := by
    intro h1 h2
    show ((getRelativeResolution W H).1 * W / (getRelativeResolution W H).1,
      (getRelativeResolution W H).2 * H / (getRelativeResolution W H).2) = (W, H)
    rw [Nat.mul_div_cancel_left W h1, Nat.mul_div_cancel_left H h2]
  refine ⟨?_, ?_, ?_, ?_, ?_, fun h1 h2 => ⟨hzero, hconv h1 h2⟩⟩ <;>
    by_cases hWH : H ≤ W <;>
    simp only [getRelativeResolution, if_pos, if_neg, hWH, if_true, if_false]
  · exact ⟨999, by norm_num⟩
  · exact hdvd _
  · exact hdvd _
  · exact ⟨999, by norm_num⟩
  · exact le_refl _
  · exact hle W H hH1 (Nat.le_of_lt (Nat.lt_of_not_le hWH))
  · exact hle H W hW1 hWH
  · exact le_refl _
  · exact Nat.max_eq_left (hle H W hW1 hWH)
  · exact Nat.max_eq_right (hle W H hH1 (Nat.le_of_lt (Nat.lt_of_not_le hWH)))

/-- Witness for C7's amended theorem at a 1920×1080 framebuffer:
relative resolution `(99900, 56100)`, both positive, converting the
corners as stated. -/
theorem relativeResolution_properties_witness :
    100 ∣ (getRelativeResolution 1920 1080).1 ∧
      100 ∣ (getRelativeResolution 1920 1080).2 ∧
      (getRelativeResolution 1920 1080).1 ≤ 99900 ∧
      (getRelativeResolution 1920 1080).2 ≤ 99900 ∧
      max (getRelativeResolution 1920 1080).1 (getRelativeResolution 1920 1080).2 = 99900 ∧
      (0 < (getRelativeResolution 1920 1080).1 → 0 < (getRelativeResolution 1920 1080).2 →
        convertRelativePoint 1920 1080 0 0 = (0, 0) ∧
        convertRelativePoint 1920 1080 (getRelativeResolution 1920 1080).1
          (getRelativeResolution 1920 1080).2 = (1920, 1080)) :=
  relativeResolution_properties 1920 1080 (by decide) (by decide) (by decide) (by decide)

/-! ## C4: SecurityResult handling -/

/-- Counterexample to C4 as stated: on the SecurityResult bytes
`00 00 00 05` followed by `00 00 00 01 41`, the client does **not** read
a 4-byte length prefix; it reuses the status `5` as the length and takes
all five bytes `00 00 00 01 41` as the reason, where the claimed policy
would read length `1` and reason `41`. -/
theorem securityResult_length_prefix_false :
    ¬ (checkAuthResult [0, 0, 0, 5, 0, 0, 0, 1, 0x41] =
        specCheckAuthResult [0, 0, 0, 5, 0, 0, 0, 1, 0x41]) := by
  decide

/-- C4 (amended): on the 4-byte SecurityResult status: status 0
succeeds; status 1 fails with AuthFailed; status 2 fails with
AuthFailedTooManyAttempts; and for every status `r` other than 0, 1 and
2 the client reads `r` bytes — the status value itself is reused as the
reason length, with no separate length prefix — and fails with the
decoded reason string. -/
theorem securityResult_status_behavior (r : Nat) (rest : List Nat)
    (h : r < 256 ^ 4) :
    checkAuthResult (toBytes 4 r ++ rest) =
      if r = 0 then some (none, rest)
      else if r = 1 then some (some .authFailed, rest)
      else if r = 2 then some (some .authFailedTooMany, rest)
      else (readBytes r rest).map
        fun p => (some (.authFailedReason p.1), p.2) := by
  rw [checkAuthResult, readInt_toBytes 4 r rest h]
  by_cases h0 : r = 0
  · simp [h0]
  by_cases h1 : r = 1
  · simp [h0, h1]
  by_cases h2 : r = 2
  · simp [h0, h1, h2]
  simp only [h0, h1, h2, if_false]
  cases readBytes r rest with
  | none => rfl
  | some p => rfl

/-- Witness for C4's amended theorem: status 5 followed by the bytes
`61 62 63 64 65` consumes exactly those five bytes as the reason. -/
theorem securityResult_status_behavior_witness :
    checkAuthResult (toBytes 4 5 ++ [0x61, 0x62, 0x63, 0x64, 0x65]) =
      if (5 : Nat) = 0 then some (none, [0x61, 0x62, 0x63, 0x64, 0x65])
      else if (5 : Nat) = 1 then some (some .authFailed, [0x61, 0x62, 0x63, 0x64, 0x65])
      else if (5 : Nat) = 2 then some (some .authFailedTooMany, [0x61, 0x62, 0x63, 0x64, 0x65])
      else (readBytes 5 [0x61, 0x62, 0x63, 0x64, 0x65]).map
        fun p => (some (.authFailedReason p.1), p.2) :=
  securityResult_status_behavior 5 [0x61, 0x62, 0x63, 0x64, 0x65] (by decide)

/-! ## C5: handshake round-trip bytes -/

/-- Counterexample to C5 as stated: against the scripted None-auth
server, the client's emitted bytes are **not**
`"RFB 003.008\n" ++ 01 ++ SetPixelFormat ++ SetEncodings` — the ClientInit
byte `01` sent between the SecurityResult and SetPixelFormat is missing
from that list. -/
theorem handshake_exact_bytes_false :
    ¬ ((connectVNC none (fun _ c => c) "rgba" noneAuthScript).2 =
        protocolVersion ++ [1] ++ setupBlock "rgba") := by
  decide

/-- C5 (amended): against the scripted None-auth server the client
connects with a 640×480 framebuffer and its emitted bytes are exactly:
the 12-byte literal `"RFB 003.008\n"`, one byte `01` selecting security
type None, one byte `01` (ClientInit, shared flag), then the
SetPixelFormat message carrying the 16-byte record of the configured
variant, then the SetEncodings message advertising exactly one encoding,
zlib (6) — for each of the four pixel-format variants, whose records
match §6 byte-for-byte. -/
theorem handshake_emitted_bytes :
    (∀ fmt, fmt = "bgra" ∨ fmt = "rgba" ∨ fmt = "argb" ∨ fmt = "abgr" →
      connectVNC none (fun _ c => c) fmt noneAuthScript =
        (.connected ⟨0, 0, 640, 480⟩ [],
         protocolVersion ++ [1] ++ [1] ++
           ([0, 0, 0, 0] ++ pixelFormats fmt) ++
           ([2, 0] ++ [0, 1] ++ [0, 0, 0, 6]))) ∧
      pixelFormats "bgra" =
        [0x20, 0x18, 0x00, 0x01, 0x00, 0xFF, 0x00, 0xFF, 0x00, 0xFF,
         0x10, 0x08, 0x00, 0x00, 0x00, 0x00] ∧
      pixelFormats "rgba" =
        [0x20, 0x18, 0x00, 0x01, 0x00, 0xFF, 0x00, 0xFF, 0x00, 0xFF,
         0x00, 0x08, 0x10, 0x00, 0x00, 0x00] ∧
      pixelFormats "argb" =
        [0x20, 0x18, 0x01, 0x01, 0x00, 0xFF, 0x00, 0xFF, 0x00, 0xFF,
         0x10, 0x08, 0x00, 0x00, 0x00, 0x00] ∧
      pixelFormats "abgr" =
        [0x20, 0x18, 0x01, 0x01, 0x00, 0xFF, 0x00, 0xFF, 0x00, 0xFF,
         0x00, 0x08, 0x10, 0x00, 0x00, 0x00] := by
  refine ⟨?_, by decide, by decide, by decide, by decide⟩
  rintro fmt (rfl | rfl | rfl | rfl) <;> decide

/-- Witness for the quantified part of C5's amended theorem at the
default format `rgba`. -/
theorem handshake_emitted_bytes_witness :
    connectVNC none (fun _ c => c) "rgba" noneAuthScript =
      (.connected ⟨0, 0, 640, 480⟩ [],
       protocolVersion ++ [1] ++ [1] ++
         ([0, 0, 0, 0] ++ pixelFormats "rgba") ++
         ([2, 0] ++ [0, 1] ++ [0, 0, 0, 6])) :=
  handshake_emitted_bytes.1 "rgba" (Or.inr (Or.inl rfl))

/-! ## C8: security-type selection -/

/-- C8: for every non-empty offered security-type list: if type 2
(VNC) is offered the client selects it (it sends the byte `02`; with no
password configured the attempt then stops at `PasswordRequired`); else
if type 1 (None) is offered the client selects it (byte `01`) and
proceeds to the SecurityResult; if neither is offered the client fails
without sending any byte beyond the 12-byte version reply — with the
Apple-Remote-Desktop error when type 33 is present, and with
`UnsupportedAuth` naming the offered set otherwise. -/
theorem auth_selection_policy (types rest : List Nat) (hne : types ≠ []) :
    (types.contains 2 = true →
      connectVNC none (fun _ c => c) "rgba"
          (protocolVersion ++ [types.length] ++ (types ++ rest)) =
        (.passwordRequired, protocolVersion ++ [2])) ∧
      (types.contains 2 = false → types.contains 1 = true →
        connectVNC none (fun _ c => c) "rgba"
            (protocolVersion ++ [types.length] ++ (types ++ rest)) =
          ((afterAuth "rgba" rest).1,
           protocolVersion ++ [1] ++ (afterAuth "rgba" rest).2)) ∧
      (types.contains 2 = false → types.contains 1 = false →
        connectVNC none (fun _ c => c) "rgba"
            (protocolVersion ++ [types.length] ++ (types ++ rest)) =
          ((if types.contains 33 then ConnectResult.ardUnsupported
            else ConnectResult.unsupportedAuth types),
           protocolVersion)) := by
  have h12 : readBytes 12 (protocolVersion ++ ([types.length] ++ (types ++ rest))) =
      some (protocolVersion, [types.length] ++ (types ++ rest)) :=
    readBytes_append _ _ _ rfl
  have h1 : readInt 1 ([types.length] ++ (types ++ rest)) =
      some (types.length, types ++ rest) := by
    rw [readInt, readBytes_append [types.length] (types ++ rest) 1 rfl,
      Option.map_some']
    rw [beInt_singleton]
  have hT : readBytes types.length (types ++ rest) = some (types, rest) :=
    readBytes_append _ _ _ rfl
  have hpre : protocolVersion.take 4 = rfbMagic := by decide
  refine ⟨?_, ?_, ?_⟩
  · intro h2
    rw [connectVNC, List.append_assoc, h12]
    simp only [hpre, if_pos, h1, hT, hne, if_neg, negotiateAuth, h2, if_true]
    rfl
  · intro h2 hone
    rw [connectVNC, List.append_assoc, h12]
    simp only [hpre, if_pos, h1, hT, hne, if_neg, negotiateAuth, h2, hone,
      if_true, if_false, Bool.false_eq_true]
    rfl
  · intro h2 hone
    rw [connectVNC, List.append_assoc, h12]
    simp only [hpre, if_pos, h1, hT, hne, if_neg, negotiateAuth, h2, hone,
      if_true, if_false, Bool.false_eq_true]
    cases h33 : types.contains 33 <;> simp [h33, hne]

/-- Witness for C8 at the offered set `{33}` (Apple Remote Desktop
only, scenario 3): the client fails with the dedicated error having
emitted nothing beyond its version reply. -/
theorem auth_selection_policy_witness :
    ([33] : List Nat).contains 2 = false ∧
      ([33] : List Nat).contains 1 = false ∧
      connectVNC none (fun _ c => c) "rgba"
          (protocolVersion ++ [([33] : List Nat).length] ++ ([33] ++ [])) =
        ((if ([33] : List Nat).contains 33 then ConnectResult.ardUnsupported
          else ConnectResult.unsupportedAuth [33]),
         protocolVersion) :=
  ⟨by decide, by decide,
    (auth_selection_policy [33] [] (by decide)).2.2 (by decide) (by decide)⟩

/-! ## C3: ServerCutText handling -/

/-- C3 (code bug): on scenario 6's stream the source's capture loop
never reads the ServerCutText's 3 padding bytes: it misparses
`AA BB CC 00` as the cut-text length (2864434176 bytes) and hangs on a
read that can never complete, where the claimed (and RFB-conformant)
parse — 3 padding bytes, then the 4-byte length `5`, then 5 discarded
bytes — drains the message and returns the covered region. -/
theorem cutText_padding_misparse :
    captureLoop idDecoder 1 1 ⟨0, 0, 1, 1⟩ 4 (initBuf 1 1) () cutTextScript =
        .error .shortRead ∧
      captureLoopSpecCut idDecoder 1 1 ⟨0, 0, 1, 1⟩ 4 (initBuf 1 1) () cutTextScript =
        .ok [[⟨0x11, 0x22, 0x33, 255⟩]] () [] := by
  constructor
  · decide
  · decide

/-! ## C1: capture completeness -/

theorem mapWithIndex_get? (f : Nat → α → β) :
    ∀ (l : List α) (i j : Nat),
      (mapWithIndex f i l).get? j = (l.get? j).map (f (i + j)) := by
  intro l
  induction l with
  | nil => intro i j; cases j <;> rfl
  | cons a as ih =>
    intro i j
    cases j with
    | zero => rfl
    | succ j =>
      rw [mapWithIndex]
      show (mapWithIndex f (i + 1) as).get? j = (as.get? j).map (f (i + (j + 1)))
      rw [ih (i + 1) j]
      have : i + 1 + j = i + (j + 1) := by omega
      rw [this]

theorem marksOnly_init (W H : Nat) : marksOnly (initBuf W H) := by
  intro x y
  left
  have hz : getCell (initBuf W H) x y = zeroCell := by
    rw [getCell, initBuf]
    rcases hrow : (List.replicate H (List.replicate W zeroCell)).get? y with _ | row
    · rfl
    · have hr : row = List.replicate W zeroCell :=
        List.eq_of_mem_replicate (List.get?_mem hrow)
      subst hr
      rcases hc : (List.replicate W zeroCell).get? x with _ | c
      · simp only [Option.some_bind, hc, Option.getD_none]
      · have hcz : c = zeroCell := List.eq_of_mem_replicate (List.get?_mem hc)
        subst hcz
        simp only [Option.some_bind, hc, Option.getD_some]
  rw [hz]
  rfl

theorem writeRect_alpha (buf : List (List Cell)) (r : Rect) (area : List Nat)
    (x y : Nat) :
    (getCell (writeRect buf r area) x y).a = 255 ∨
      getCell (writeRect buf r area) x y = getCell buf x y := by
  rw [writeRect, getCell, getCell, mapWithIndex_get?]
  rcases hrow : buf.get? y with _ | row
  · right; rfl
  · simp only [Option.map_some', Option.some_bind, Nat.zero_add]
    by_cases hy : r.y ≤ y ∧ y < r.y + r.height
    · simp only [if_pos hy, mapWithIndex_get?, Nat.zero_add]
      rcases hc : row.get? x with _ | c
      · right; rfl
      · simp only [Option.map_some', Option.getD_some]
        by_cases hx : r.x ≤ x ∧ x < r.x + r.width
        · left; simp [if_pos hx, areaCell]
        · right; simp [if_neg hx]
    · right; simp [if_neg hy]

theorem marksOnly_writeRect (buf : List (List Cell)) (r : Rect)
    (area : List Nat) (hm : marksOnly buf) : marksOnly (writeRect buf r area) := by
  intro x y
  rcases writeRect_alpha buf r area x y with h | h
  · right; exact h
  · rw [h]; exact hm x y

theorem processRects_marks (dec : D → List Nat → List Nat × D) (W H : Nat) :
    ∀ (n : Nat) (buf : List (List Cell)) (d : D) (s : List Nat)
      (out : List (List Cell) × D × List Nat),
      marksOnly buf → processRects dec W H n buf d s = .ok out →
      marksOnly out.1 := by
  intro n
  induction n with
  | zero =>
    intro buf d s out hm h
    rw [processRects] at h
    cases h
    exact hm
  | succ n ih =>
    intro buf d s out hm h
    rw [processRects] at h
    rcases hq1 : readInt 2 s with _ | ⟨ax, s1⟩ <;> simp only [hq1] at h
    · cases h
    rcases hq2 : readInt 2 s1 with _ | ⟨ay, s2⟩ <;> simp only [hq2] at h
    · cases h
    rcases hq3 : readInt 2 s2 with _ | ⟨aw, s3⟩ <;> simp only [hq3] at h
    · cases h
    rcases hq4 : readInt 2 s3 with _ | ⟨ah, s4⟩ <;> simp only [hq4] at h
    · cases h
    rcases hq5 : readInt 4 s4 with _ | ⟨enc, s5⟩ <;> simp only [hq5] at h
    · cases h
    by_cases he0 : enc = 0
    · simp only [if_pos he0] at h
      rcases hq6 : readBytes (ah * aw * 4) s5 with _ | ⟨area, s6⟩ <;>
        simp only [hq6] at h
      · cases h
      by_cases hb : ax + aw ≤ W ∧ ay + ah ≤ H
      · rw [if_pos hb] at h
        exact ih _ _ _ _ (marksOnly_writeRect _ _ _ hm) h
      · rw [if_neg hb] at h
        cases h
    · simp only [if_neg he0] at h
      by_cases he6 : enc = 6
      · simp only [if_pos he6] at h
        rcases hq6 : readInt 4 s5 with _ | ⟨len, s6⟩ <;> simp only [hq6] at h
        · cases h
        rcases hq7 : readBytes len s6 with _ | ⟨payload, s7⟩ <;>
          simp only [hq7] at h
        · cases h
        by_cases hb : ah * aw * 4 ≤ (dec d payload).1.length ∧
            ax + aw ≤ W ∧ ay + ah ≤ H
        · rw [if_pos hb] at h
          exact ih _ _ _ _ (marksOnly_writeRect _ _ _ hm) h
        · rw [if_neg hb] at h
          cases h
      · simp only [if_neg he6] at h
        cases h

theorem captureStep_finished (dec : D → List Nat → List Nat × D) (W H : Nat)
    (rect : Rect) (buf : List (List Cell)) (d : D) (s : List Nat)
    (buf1 : List (List Cell)) (d1 : D) (s1 : List Nat) (hm : marksOnly buf)
    (h : captureStep dec W H rect buf d s = .finished buf1 d1 s1) :
    marksOnly buf1 ∧ regionCoveredB W H rect buf1 = true := by
  rw [captureStep] at h
  rcases hq1 : readInt 1 s with _ | ⟨t, t1⟩ <;> simp only [hq1] at h
  · cases h
  by_cases ht2 : t = 2
  · simp only [if_pos ht2] at h
    rcases hq2 : readInt 4 t1 with _ | ⟨n2, t2⟩ <;> simp only [hq2] at h
    · cases h
    rcases hq3 : readBytes n2 t2 with _ | ⟨cut, t3⟩ <;> simp only [hq3] at h
    · cases h
    · cases h
  · simp only [if_neg ht2] at h
    by_cases ht0 : t = 0
    · simp only [if_pos ht0] at h
      rcases hq2 : readBytes 1 t1 with _ | ⟨pad, t2⟩ <;> simp only [hq2] at h
      · cases h
      rcases hq3 : readInt 2 t2 with _ | ⟨cnt, t3⟩ <;> simp only [hq3] at h
      · cases h
      rcases hq4 : processRects dec W H cnt buf d t3 with e | ⟨buf2, d2, s4⟩ <;>
        simp only [hq4] at h
      · cases h
      by_cases hcov : regionCoveredB W H rect buf2 = true
      · rw [if_pos hcov] at h
        cases h
        exact ⟨processRects_marks dec W H cnt buf d t3 _ hm hq4, hcov⟩
      · rw [if_neg hcov] at h
        cases h
    · simp only [if_neg ht0] at h
      cases h

theorem captureStep_more (dec : D → List Nat → List Nat × D) (W H : Nat)
    (rect : Rect) (buf : List (List Cell)) (d : D) (s : List Nat)
    (buf1 : List (List Cell)) (d1 : D) (s1 : List Nat) (hm : marksOnly buf)
    (h : captureStep dec W H rect buf d s = .more buf1 d1 s1) :
    marksOnly buf1 := by
  rw [captureStep] at h
  rcases hq1 : readInt 1 s with _ | ⟨t, t1⟩ <;> simp only [hq1] at h
  · cases h
  by_cases ht2 : t = 2
  · simp only [if_pos ht2] at h
    rcases hq2 : readInt 4 t1 with _ | ⟨n2, t2⟩ <;> simp only [hq2] at h
    · cases h
    rcases hq3 : readBytes n2 t2 with _ | ⟨cut, t3⟩ <;> simp only [hq3] at h
    · cases h
    · cases h
      exact hm
  · simp only [if_neg ht2] at h
    by_cases ht0 : t = 0
    · simp only [if_pos ht0] at h
      rcases hq2 : readBytes 1 t1 with _ | ⟨pad, t2⟩ <;> simp only [hq2] at h
      · cases h
      rcases hq3 : readInt 2 t2 with _ | ⟨cnt, t3⟩ <;> simp only [hq3] at h
      · cases h
      rcases hq4 : processRects dec W H cnt buf d t3 with e | ⟨buf2, d2, s4⟩ <;>
        simp only [hq4] at h
      · cases h
      by_cases hcov : regionCoveredB W H rect buf2 = true
      · rw [if_pos hcov] at h
        cases h
      · rw [if_neg hcov] at h
        cases h
        exact processRects_marks dec W H cnt buf d t3 _ hm hq4
    · simp only [if_neg ht0] at h
      cases h

theorem captureLoop_ok (dec : D → List Nat → List Nat × D) (W H : Nat)
    (rect : Rect) :
    ∀ (fuel : Nat) (buf : List (List Cell)) (d : D) (s : List Nat)
      (buf1 : List (List Cell)) (d1 : D) (s1 : List Nat),
      marksOnly buf → captureLoop dec W H rect fuel buf d s = .ok buf1 d1 s1 →
      marksOnly buf1 ∧ regionCoveredB W H rect buf1 = true := by
  intro fuel
  induction fuel with
  | zero => intro buf d s buf1 d1 s1 _ h; cases h
  | succ fuel ih =>
    intro buf d s buf1 d1 s1 hm h
    rw [captureLoop] at h
    rcases hstep : captureStep dec W H rect buf d s with ⟨b2, d2, s2⟩ | ⟨b2, d2, s2⟩ | e <;>
      simp only [hstep] at h
    · cases h
      exact captureStep_finished dec W H rect buf d s _ _ _ hm hstep
    · exact ih _ _ _ _ _ _ (captureStep_more dec W H rect buf d s _ _ _ hm hstep) h
    · cases h

/-- C1: for every in-bounds requested region and every server byte
stream: whenever `capture(region)` returns (the loop reaches `.ok` at
the end of some FramebufferUpdate message rather than erroring or
reading forever), every cell of the requested region carries the written
mark — its alpha byte is 255 — and the returned grid is exactly the
region's sub-rectangle of the framebuffer-sized buffer.  (Contrapositive
of the loop guard: while any cell of the region is unwritten the loop
keeps reading further messages.) -/
theorem capture_returns_only_covered {D : Type}
    (dec : D → List Nat → List Nat × D) (W H : Nat) (rect : Rect)
    (fuel : Nat) (d : D) (s : List Nat)
    (buf : List (List Cell)) (d1 : D) (s1 : List Nat) (dx dy : Nat)
    (hx : rect.x + rect.width ≤ W) (hy : rect.y + rect.height ≤ H)
    (hdx : dx < rect.width) (hdy : dy < rect.height)
    (h : captureLoop dec W H rect fuel (initBuf W H) d s = .ok buf d1 s1) :
    (getCell buf (rect.x + dx) (rect.y + dy)).a = 255 ∧
      capture dec W H rect fuel d s = some (extractGrid W H rect buf) := by
  obtain ⟨hm, hcov⟩ := captureLoop_ok dec W H rect fuel _ d s buf d1 s1
    (marksOnly_init W H) h
  constructor
  · rw [regionCoveredB] at hcov
    rw [List.all_eq_true] at hcov
    have hrow := hcov dy (by
      rw [List.mem_range, min_eq_left hy, Nat.add_sub_cancel_left]
      exact hdy)
    rw [List.all_eq_true] at hrow
    have hcell := hrow dx (by
      rw [List.mem_range, min_eq_left hx, Nat.add_sub_cancel_left]
      exact hdx)
    rcases hm (rect.x + dx) (rect.y + dy) with hz | hz
    · exfalso
      rw [hz] at hcell
      simp at hcell
    · exact hz
  · rw [capture, h]

/-- Witness for C1: a 1×1 framebuffer, region `(0,0,1,1)`, and a single
Raw FramebufferUpdate covering it: the loop returns with the region's
one cell marked (alpha 255) and capture delivers the one-cell
sub-rectangle with the pixel bytes and alpha forced to 255. -/
theorem capture_returns_only_covered_witness :
    (getCell [[⟨0xAA, 0xBB, 0xCC, 255⟩]] (0 + 0) (0 + 0)).a = 255 ∧
      capture idDecoder 1 1 ⟨0, 0, 1, 1⟩ 2 ()
          [0, 0, 0, 1, 0, 0, 0, 0, 0, 1, 0, 1, 0, 0, 0, 0,
           0xAA, 0xBB, 0xCC, 0xDD] =
        some (extractGrid 1 1 ⟨0, 0, 1, 1⟩ [[⟨0xAA, 0xBB, 0xCC, 255⟩]]) :=
  capture_returns_only_covered idDecoder 1 1 ⟨0, 0, 1, 1⟩ 2 ()
    [0, 0, 0, 1, 0, 0, 0, 0, 0, 1, 0, 1, 0, 0, 0, 0, 0xAA, 0xBB, 0xCC, 0xDD]
    [[⟨0xAA, 0xBB, 0xCC, 255⟩]] () [] 0 0
    (by decide) (by decide) (by decide) (by decide) (by decide)

end PyVNC
